import Mathlib

/-!
# Verification of the `RouteTrie` path-routing engine (`src/trie.ts`)

Shallow embedding of the trie-based router: segment classification
(`parseSegment`), trie construction (`_addRoute`), multi-tier path
normalization and the recursive, non-short-circuiting matcher (`match`,
`_matchPath`, `_match`).  Handlers are opaque in the source and are
modelled by `Nat` identifiers.  JavaScript strings are modelled by Lean
`String`/`List Char`; all string operations used by the source
(`split('/')`, `replace`, `toLowerCase`, `endsWith`, `slice`) are
re-implemented structurally below so that every definition evaluates by
kernel reduction.

The host `RegExp` primitive is not part of the repository.  It is
modelled by a small concrete engine (`lexRegex`/`parseToks`/`reMatchF`)
covering the fragment exercised by the routes under study: literal
characters, `\d`, `\w`, `.`, escaped metacharacters and the postfix
quantifiers `+ * ?`, with `^`/`$` anchors at the ends.  `RegExp.prototype.toString`
is modelled by `JSRegex.str` (`"/" ++ source ++ "/" ++ flags`), exactly the
shape the source compares during duplicate detection.  Case folding
(`toLowerCase` and the `i` flag) is modelled for ASCII, which covers all
paths appearing in the specification.
-/

/-- One slash-delimited path component classification, as produced by
`parseSegment` in `src/trie.ts` (the declared-but-never-produced
`literal-colon` tag is omitted because no code path returns it). -/
inductive ParsedSegment : Type where
  | static (value : String)
  | named (name : String)
  | namedRegex (name regex : String)
  | namedSuffix (name suf : String)
  | namedRegexSuffix (name regex suf : String)
  | catchAll (name : String)
  | wildcard
deriving DecidableEq, Repr

/-- The four parameter-child kinds stored in `TrieNode.paramChildren`. -/
inductive PKind : Type where
  | named
  | namedRegex
  | namedSuffix
  | namedRegexSuffix
deriving DecidableEq, Repr

/-- ASCII word character, `[a-zA-Z0-9_]` in the classifier regexes. -/
def isWordChar (c : Char) : Bool :=
  ('a' ≤ c && c ≤ 'z') || ('A' ≤ c && c ≤ 'Z') || ('0' ≤ c && c ≤ '9') || c = '_'

/-- Characters that the JavaScript `.` atom does **not** match. -/
def isLineTerm (c : Char) : Bool :=
  c = '\n' || c = '\r' || c = '\u2028' || c = '\u2029'

/-- Attempt the classifier regex `:([a-zA-Z0-9_]+)(?:\(([^)]+)\))?\+(.+)`
at exactly this position.  Greedy runs need no backtracking here: `(` and
`+` are not word characters, and `)` is excluded from the inner run, so
shrinking a greedy run can never repair a failed continuation. -/
def suffixFormAt (cs : List Char) : Option (String × Option String × String) :=
  match cs with
  | ':' :: rest =>
    let nm := rest.takeWhile isWordChar
    let r1 := rest.dropWhile isWordChar
    if nm = [] then none
    else
      match r1 with
      | '(' :: r2 =>
        let pat := r2.takeWhile (fun c => c ≠ ')')
        let r3 := r2.dropWhile (fun c => c ≠ ')')
        if pat = [] then none
        else
          match r3 with
          | ')' :: '+' :: r4 =>
            let sfx := r4.takeWhile (fun c => !isLineTerm c)
            if sfx = [] then none
            else some (String.mk nm, some (String.mk pat), String.mk sfx)
          | _ => none
      | '+' :: r2 =>
        let sfx := r2.takeWhile (fun c => !isLineTerm c)
        if sfx = [] then none else some (String.mk nm, none, String.mk sfx)
      | _ => none
  | _ => none

/-- Attempt the classifier regex `:([a-zA-Z0-9_]+)\(([^)]+)\)` at exactly
this position. -/
def regexFormAt (cs : List Char) : Option (String × String) :=
  match cs with
  | ':' :: rest =>
    let nm := rest.takeWhile isWordChar
    let r1 := rest.dropWhile isWordChar
    if nm = [] then none
    else
      match r1 with
      | '(' :: r2 =>
        let pat := r2.takeWhile (fun c => c ≠ ')')
        let r3 := r2.dropWhile (fun c => c ≠ ')')
        if pat = [] then none
        else
          match r3 with
          | ')' :: _ => some (String.mk nm, String.mk pat)
          | _ => none
      | _ => none
  | _ => none

/-- Leftmost-match search: JavaScript `String.prototype.match` with an
unanchored pattern tries each start position left to right. -/
def scanForm {α : Type} (f : List Char → Option α) : List Char → Option α
  | [] => f []
  | c :: cs =>
    match f (c :: cs) with
    | some r => some r
    | none => scanForm f cs

/-- `parseSegment` from `src/trie.ts`: the seven-way classifier, with the
checks performed in the source's order. -/
def parseSegment (segment : String) : ParsedSegment :=
  let cs := segment.toList
  if cs.take 2 = [':', ':'] then .static (String.mk (':' :: cs.drop 2))
  else if cs = ['*'] then .wildcard
  else if cs.getLast? = some '*' && cs.head? = some ':' then
    .catchAll (String.mk ((cs.drop 1).dropLast))
  else
    match scanForm suffixFormAt cs with
    | some (nm, some re, sfx) => .namedRegexSuffix nm re sfx
    | some (nm, none, sfx) => .namedSuffix nm sfx
    | none =>
      match scanForm regexFormAt cs with
      | some (nm, re) => .namedRegex nm re
      | none =>
        if cs.head? = some ':' then .named (String.mk (cs.drop 1))
        else .static segment

example : parseSegment "foo" = .static "foo" := by decide
example : parseSegment "::x" = .static ":x" := by decide
example : parseSegment "*" = .wildcard := by decide
example : parseSegment ":rest*" = .catchAll "rest" := by decide
example : parseSegment ":id" = .named "id" := by decide
example : parseSegment ":id(\\d+)" = .namedRegex "id" "\\d+" := by decide
example : parseSegment ":id(\\d+)+json" = .namedRegexSuffix "id" "\\d+" "json" := by decide
example : parseSegment ":name+.txt" = .namedSuffix "name" ".txt" := by decide
example : parseSegment "ab:id(x)" = .namedRegex "id" "x" := by decide

/-- Atoms of the modelled regular-expression fragment. -/
inductive RAtom : Type where
  | lit (c : Char)
  | digitCls
  | wordCls
  | dot
deriving DecidableEq, Repr

/-- Postfix quantifiers of the modelled fragment. -/
inductive RQuant : Type where
  | one
  | plus
  | star
  | opt
deriving DecidableEq, Repr

/-- Regular-expression metacharacters: unescaped occurrences are either
syntax of the fragment or rejected as unsupported. -/
def metaChars : List Char :=
  ['\\', '^', '$', '.', '(', ')', '[', ']', '{', '}', '|', '?', '*', '+']

/-- Modelled from the spec: the host platform's regex engine is external
to this repository ("it delegates value-validation to a per-parameter
anchored pattern supplied by the caller").  Lexing pass: split the
pattern into (escaped?, char) tokens; a trailing backslash is a
compile error. -/
def lexRegex : List Char → Option (List (Bool × Char))
  | [] => some []
  | '\\' :: [] => none
  | '\\' :: c :: rest => (lexRegex rest).map (fun l => (true, c) :: l)
  | c :: rest => (lexRegex rest).map (fun l => (false, c) :: l)

/-- Atom denoted by one token, if supported by the fragment. -/
def tokAtom : Bool × Char → Option RAtom
  | (true, c) =>
    if c = 'd' then some .digitCls
    else if c = 'w' then some .wordCls
    else if c ∈ metaChars then some (.lit c)
    else none
  | (false, c) =>
    if c = '.' then some .dot
    else if c ∈ metaChars then none
    else some (.lit c)

/-- Quantifier denoted by one token, if any (escaped `\+` is not a
quantifier). -/
def tokQuant : Bool × Char → Option RQuant
  | (false, '+') => some .plus
  | (false, '*') => some .star
  | (false, '?') => some .opt
  | _ => none

/-- Parsing pass: each atom takes an optional postfix quantifier; a
quantifier with nothing to repeat (for example the whole pattern `+`)
is a compile error, as in the host engine. -/
def parseToks : List (Bool × Char) → Option (List (RAtom × RQuant))
  | [] => some []
  | [t] => (tokAtom t).map (fun a => [(a, .one)])
  | t :: t2 :: rest2 =>
    match tokAtom t with
    | none => none
    | some a =>
      match tokQuant t2 with
      | some q => (parseToks rest2).map (fun l => (a, q) :: l)
      | none => (parseToks (t2 :: rest2)).map (fun l => (a, .one) :: l)

/-- Strip leading `^` anchors and trailing `$` anchors (always legal in
the host engine) before parsing the body. -/
def stripAnchors (cs : List Char) : List Char :=
  ((cs.dropWhile (fun c => c = '^')).reverse.dropWhile (fun c => c = '$')).reverse

/-- Compile a pattern string in the modelled fragment. -/
def jsParse (src : String) : Option (List (RAtom × RQuant)) :=
  match lexRegex (stripAnchors src.toList) with
  | none => none
  | some toks => parseToks toks

/-- `true` iff `new RegExp(src)` succeeds in the modelled fragment. -/
def jsCompiles (src : String) : Bool :=
  (jsParse src).isSome

/-- Single-character atom test; `flagI` is the `i` flag (ASCII folding). -/
def atomTest (flagI : Bool) (a : RAtom) (c : Char) : Bool :=
  match a with
  | .lit l => if flagI then l.toLower = c.toLower else l = c
  | .digitCls => '0' ≤ c && c ≤ '9'
  | .wordCls => isWordChar c
  | .dot => !isLineTerm c

/-- Fuel-indexed backtracking matcher for the fragment (full-string
match).  Fuel only drives termination: every recursive call shrinks the
pair (characters left, program left) lexicographically, so
`(cs.length + 1) * (prog.length + 2)` fuel always suffices. -/
def reMatchF : Nat → Bool → List (RAtom × RQuant) → List Char → Bool
  | 0, _, _, _ => false
  | _ + 1, _, [], [] => true
  | _ + 1, _, [], _ :: _ => false
  | fuel + 1, i, (a, .one) :: rs, cs =>
    match cs with
    | [] => false
    | c :: cs2 => atomTest i a c && reMatchF fuel i rs cs2
  | fuel + 1, i, (a, .plus) :: rs, cs =>
    match cs with
    | [] => false
    | c :: cs2 => atomTest i a c && reMatchF fuel i ((a, .star) :: rs) cs2
  | fuel + 1, i, (a, .star) :: rs, cs =>
    reMatchF fuel i rs cs ||
      (match cs with
       | [] => false
       | c :: cs2 => atomTest i a c && reMatchF fuel i ((a, .star) :: rs) cs2)
  | fuel + 1, i, (a, .opt) :: rs, cs =>
    reMatchF fuel i rs cs ||
      (match cs with
       | [] => false
       | c :: cs2 => atomTest i a c && reMatchF fuel i rs cs2)

/-- A compiled `RegExp` object: the constructor-supplied source and the
`i` flag.  `JSRegex.str` models `RegExp.prototype.toString`. -/
structure JSRegex : Type where
  source : String
  flagI : Bool
deriving DecidableEq, Repr

def JSRegex.str (r : JSRegex) : String :=
  "/" ++ r.source ++ "/" ++ (if r.flagI then "i" else "")

/-- `RegExp.prototype.toString` of `new RegExp(src)` (no flags). -/
def rawStr (src : String) : String :=
  "/" ++ src ++ "/"

/-- `r.test(s)`: the stored sources are always `^`-`$` anchored, so the
test is a full-string match of the anchor-stripped body. -/
def regexTest (r : JSRegex) (s : String) : Bool :=
  let inner := stripAnchors r.source.toList
  match lexRegex inner with
  | none => false
  | some toks =>
    match parseToks toks with
    | none => false
    | some prog => reMatchF ((s.toList.length + 1) * (prog.length + 2)) r.flagI prog s.toList

example : jsCompiles "\\d+" = true := by decide
example : jsCompiles "^\\d+$" = true := by decide
example : jsCompiles "+" = false := by decide
example : jsCompiles "^+$" = false := by decide
example : regexTest ⟨"^\\d+$", true⟩ "42" = true := by decide
example : regexTest ⟨"^\\d+$", true⟩ "abc" = false := by decide
example : regexTest ⟨"^\\d+$", true⟩ "" = false := by decide
example : regexTest ⟨"^a.c$", false⟩ "aXc" = true := by decide
example : regexTest ⟨"^A$", true⟩ "a" = true := by decide
example : regexTest ⟨"^A$", false⟩ "a" = false := by decide

/-- A trie node, `class TrieNode` in `src/trie.ts`: static children (a
`Map`, modelled as an insertion-ordered association list), the ordered
parameter-child records, at most one catch-all record, at most one
wildcard child, and the handlers attached at this node. -/
inductive TrieNode : Type where
  | mk (staticChildren : List (String × TrieNode))
       (paramChildren : List (PKind × String × Option JSRegex × Option String × TrieNode))
       (catchAllChild : Option (String × TrieNode))
       (wildcardChild : Option TrieNode)
       (handlers : List Nat)

/-- One record of `TrieNode.paramChildren`:
`{type, name, regex?, suffix?, node}`. -/
abbrev ParamChild : Type := PKind × String × Option JSRegex × Option String × TrieNode

def ParamChild.kind (p : ParamChild) : PKind := p.1
def ParamChild.name (p : ParamChild) : String := p.2.1
def ParamChild.regex (p : ParamChild) : Option JSRegex := p.2.2.1
def ParamChild.suf (p : ParamChild) : Option String := p.2.2.2.1
def ParamChild.node (p : ParamChild) : TrieNode := p.2.2.2.2

def TrieNode.staticChildren : TrieNode → List (String × TrieNode)
  | .mk s _ _ _ _ => s

def TrieNode.paramChildren : TrieNode → List ParamChild
  | .mk _ p _ _ _ => p

def TrieNode.catchAllChild : TrieNode → Option (String × TrieNode)
  | .mk _ _ c _ _ => c

def TrieNode.wildcardChild : TrieNode → Option TrieNode
  | .mk _ _ _ w _ => w

def TrieNode.handlers : TrieNode → List Nat
  | .mk _ _ _ _ h => h

/-- A freshly constructed `new TrieNode()`. -/
def TrieNode.empty : TrieNode := .mk [] [] none none []

/-- `addHandler`: push onto the handler list. -/
def TrieNode.addHandler : TrieNode → Nat → TrieNode
  | .mk s p c w h, hd => .mk s p c w (h ++ [hd])

def TrieNode.withStatics : TrieNode → List (String × TrieNode) → TrieNode
  | .mk _ p c w h, s => .mk s p c w h

def TrieNode.withParams : TrieNode → List ParamChild → TrieNode
  | .mk s _ c w h, p => .mk s p c w h

def TrieNode.withCatchAll : TrieNode → Option (String × TrieNode) → TrieNode
  | .mk s p _ w h, c => .mk s p c w h

def TrieNode.withWildcard : TrieNode → Option TrieNode → TrieNode
  | .mk s p c _ h, w => .mk s p c w h

/-- Lookup in an insertion-ordered association list (`Map.get`). -/
def alGet {α : Type} : List (String × α) → String → Option α
  | [], _ => none
  | (k, v) :: rest, key => if k = key then some v else alGet rest key

/-- Update in an insertion-ordered association list: existing keys keep
their position (`Map.set`, and JavaScript object spread-with-override). -/
def alSet {α : Type} : List (String × α) → String → α → List (String × α)
  | [], key, v => [(key, v)]
  | (k, w) :: rest, key, v =>
    if k = key then (key, v) :: rest else (k, w) :: alSet rest key v

/-- The two ways registration can fail: the host `SyntaxError` escaping
from `new RegExp(parsed.regex)` inside the duplicate-detection
comparison, and the wrapped `Error("Invalid regex in route: …")` thrown
by the `try`/`catch` around compilation of the anchored pattern (the
spec's `ConfigurationError`). -/
inductive RouteError : Type where
  | syntaxError (pattern : String)
  | configError (pattern : String)
deriving DecidableEq, Repr

/-- The duplicate-detection scan of `_addRoute` (`src/trie.ts` lines
188-196): find the first parameter child with the same name and type
whose stored regex's `toString()` equals `new RegExp(parsed.regex).toString()`
(or both absent) and the same suffix.  Conjuncts are evaluated in the
source's short-circuit order, so `new RegExp(parsed.regex)` is only
constructed — and only throws on a non-compiling pattern — after name
and type have matched.  Returns the list split around the match. -/
def scanParamChildren (kind : PKind) (nm : String) (reSrc : Option String)
    (sfx : Option String) :
    List ParamChild → Except RouteError (Option (List ParamChild × ParamChild × List ParamChild))
  | [] => .ok none
  | pc :: rest =>
    let hit : Except RouteError Bool :=
      if pc.name = nm ∧ pc.kind = kind then
        match reSrc with
        | some r =>
          if jsCompiles r then
            .ok (pc.regex.map JSRegex.str = some (rawStr r) ∧ pc.suf = sfx : Bool)
          else .error (.syntaxError r)
        | none => .ok (pc.regex.map JSRegex.str = none ∧ pc.suf = sfx : Bool)
      else .ok false
    match hit with
    | .error e => .error e
    | .ok true => .ok (some ([], pc, rest))
    | .ok false =>
      match scanParamChildren kind nm reSrc sfx rest with
      | .error e => .error e
      | .ok none => .ok none
      | .ok (some (bef, p, aft)) => .ok (some (pc :: bef, p, aft))

/-- The parameter-kind arm of `_addRoute`, shared by the four named
kinds.  `recurse` continues insertion below the (found or created)
parameter child with the remaining segments.  On error the node state
mutated so far is returned alongside the error, exactly as the thrown
exception leaves the mutated trie behind in the source. -/
def addParamRoute (ic : Bool) (node : TrieNode) (kind : PKind) (nm : String)
    (reSrc : Option String) (sfx : Option String)
    (recurse : TrieNode → TrieNode × Option RouteError) :
    TrieNode × Option RouteError :=
  match scanParamChildren kind nm reSrc sfx node.paramChildren with
  | .error e => (node, some e)
  | .ok (some (bef, pc, aft)) =>
    let (child, err) := recurse pc.node
    (node.withParams (bef ++ [(pc.kind, pc.name, pc.regex, pc.suf, child)] ++ aft), err)
  | .ok none =>
    match reSrc with
    | some r =>
      if jsCompiles ("^" ++ r ++ "$") then
        let (child, err) := recurse TrieNode.empty
        (node.withParams (node.paramChildren ++
          [(kind, nm, some ⟨"^" ++ r ++ "$", ic⟩, sfx, child)]), err)
      else (node, some (.configError r))
    | none =>
      let (child, err) := recurse TrieNode.empty
      (node.withParams (node.paramChildren ++ [(kind, nm, none, sfx, child)]), err)

/-- `_addRoute` from `src/trie.ts`: walk/create one node per segment and
attach the handler at the terminal node.  The wildcard arm recurses with
the segment index moved to the end (`segments.length`), which is exactly
an `addHandler` on the wildcard child; segments after a wildcard are
dropped. -/
def addRouteNode (ic : Bool) : TrieNode → List String → Nat → TrieNode × Option RouteError
  | node, [], h => (node.addHandler h, none)
  | node, seg :: rest, h =>
    match parseSegment seg with
    | .static v =>
      let child := (alGet node.staticChildren v).getD TrieNode.empty
      let (child2, err) := addRouteNode ic child rest h
      (node.withStatics (alSet node.staticChildren v child2), err)
    | .named nm =>
      addParamRoute ic node .named nm none none (fun n => addRouteNode ic n rest h)
    | .namedRegex nm re =>
      addParamRoute ic node .namedRegex nm (some re) none (fun n => addRouteNode ic n rest h)
    | .namedSuffix nm sfx =>
      addParamRoute ic node .namedSuffix nm none (some sfx) (fun n => addRouteNode ic n rest h)
    | .namedRegexSuffix nm re sfx =>
      addParamRoute ic node .namedRegexSuffix nm (some re) (some sfx)
        (fun n => addRouteNode ic n rest h)
    | .catchAll nm =>
      match node.catchAllChild with
      | some (nm0, c) =>
        let (c2, err) := addRouteNode ic c rest h
        (node.withCatchAll (some (nm0, c2)), err)
      | none =>
        let (c2, err) := addRouteNode ic TrieNode.empty rest h
        (node.withCatchAll (some (nm, c2)), err)
    | .wildcard =>
      let child := node.wildcardChild.getD TrieNode.empty
      (node.withWildcard (some (child.addHandler h)), none)

/-- ASCII case folding of one character (`String.prototype.toLowerCase`
restricted to ASCII, which covers every path in the specification). -/
def lowChar (c : Char) : Char :=
  if 'A' ≤ c && c ≤ 'Z' then Char.ofNat (c.toNat + 32) else c

def lowerStr (s : String) : String :=
  String.mk (s.toList.map lowChar)

/-- `replace(/\/+/g, '/')`: collapse every run of separators to one.
The flag records whether the previous character was a separator. -/
def collapseAux : Bool → List Char → List Char
  | _, [] => []
  | prevSlash, c :: rest =>
    if c = '/' then
      if prevSlash then collapseAux true rest
      else '/' :: collapseAux true rest
    else c :: collapseAux false rest

def collapseSlashes (s : String) : String :=
  String.mk (collapseAux false s.toList)

/-- `replace(/^\/+/, '')` on the character list. -/
def dropLeadSlashes (cs : List Char) : List Char :=
  cs.dropWhile (fun c => c = '/')

/-- `replace(/\/+$/, '')` on the character list. -/
def dropTrailSlashes (cs : List Char) : List Char :=
  (cs.reverse.dropWhile (fun c => c = '/')).reverse

def trimTrailSlashes (s : String) : String :=
  String.mk (dropTrailSlashes s.toList)

/-- `split('/')` with JavaScript semantics (`"" → [""]`, separators kept
as empty tokens). -/
def splitSlashAux : List Char → List Char → List String
  | [], acc => [String.mk acc.reverse]
  | '/' :: rest, acc => String.mk acc.reverse :: splitSlashAux rest []
  | c :: rest, acc => splitSlashAux rest (c :: acc)

def splitSlash (s : String) : List String :=
  splitSlashAux s.toList []

/-- `segments.slice(index).join('/')`. -/
def joinSlash : List String → String
  | [] => ""
  | [s] => s
  | s :: rest => s ++ "/" ++ joinSlash rest

/-- Drop the trailing run of empty tokens. -/
def dropTrailEmpty (l : List String) : List String :=
  (l.reverse.dropWhile (fun s => s = "")).reverse

/-- The `Required<RouteTrieOptions>` record held by the router. -/
structure ResolvedOptions : Type where
  ignoreCase : Bool
  fixedPath : Bool
  trailingSlash : Bool
deriving DecidableEq, Repr

/-- The constructor-argument record, each field optional with default
`true` (`options.x ?? true`). -/
structure RouteTrieOptions : Type where
  ignoreCase : Option Bool := none
  fixedPath : Option Bool := none
  trailingSlash : Option Bool := none
deriving DecidableEq, Repr

/-- `class RouteTrie`: root node, resolved options and the auxiliary
`routes` registry (a `Map<string, Function[]>`). -/
structure RouteTrie : Type where
  root : TrieNode
  options : ResolvedOptions
  routes : List (String × List Nat)

/-- `new RouteTrie(options)`. -/
def RouteTrie.new (o : RouteTrieOptions) : RouteTrie :=
  { root := TrieNode.empty
    options :=
      { ignoreCase := o.ignoreCase.getD true
        fixedPath := o.fixedPath.getD true
        trailingSlash := o.trailingSlash.getD true }
    routes := [] }

/-- `normalizeRoutePath`: trim leading/trailing separators, case-fold if
`ignoreCase`, collapse separator runs if `fixedPath`. -/
def normalizeRoutePath (opts : ResolvedOptions) (path : String) : String :=
  let n1 := String.mk (dropTrailSlashes (dropLeadSlashes path.toList))
  let n2 := if opts.ignoreCase then lowerStr n1 else n1
  if opts.fixedPath then collapseSlashes n2 else n2

/-- `routes` registry update: `if (!has) set(key, []); get(key).push(h)`. -/
def routesAdd : List (String × List Nat) → String → Nat → List (String × List Nat)
  | [], key, h => [(key, [h])]
  | (k, hs) :: rest, key, h =>
    if k = key then (k, hs ++ [h]) :: rest else (k, hs) :: routesAdd rest key h

/-- `addRoute` from `src/trie.ts`: register the normalized pattern in the
`routes` registry, then insert its non-empty segments into the trie.  On
a registration error the partially mutated state is returned alongside
the error, as the thrown exception leaves it behind in the source. -/
def RouteTrie.addRoute (t : RouteTrie) (path : String) (h : Nat) :
    RouteTrie × Option RouteError :=
  let np := normalizeRoutePath t.options path
  let routes2 := routesAdd t.routes np h
  let segs := (splitSlash np).filter (fun s => s ≠ "")
  let (root2, err) := addRouteNode t.options.ignoreCase t.root segs h
  ({ t with root := root2, routes := routes2 }, err)

/-- One match result: the bound parameters (a JavaScript object,
modelled as an insertion-ordered association list) and the handlers of
the reached terminal node. -/
structure MatchResult : Type where
  params : List (String × String)
  handlers : List Nat
deriving DecidableEq, Repr

/-- `endsWith` on character lists. -/
def listEndsWith (s t : List Char) : Bool :=
  decide (t.length ≤ s.length) && s.drop (s.length - t.length) == t

/-- `segment.slice(0, -n)` for `0 < n ≤ length`. -/
def dropEndStr (s : String) (n : Nat) : String :=
  String.mk (s.toList.take (s.toList.length - n))

/-- The per-parameter-child binding test of `_match` (`src/trie.ts`
lines 314-343): `named` always binds the raw segment; `named-regex`
binds if the compiled pattern accepts it; `named-suffix` binds the
prefix before the (truthy, hence non-empty) suffix; `named-regex-suffix`
requires both.  Returns the bound value, or `none` when the child does
not accept the segment. -/
def paramTry (pc : ParamChild) (seg : String) : Option String :=
  match pc.kind with
  | .named => some seg
  | .namedRegex =>
    match pc.regex with
    | some r => if regexTest r seg then some seg else none
    | none => none
  | .namedSuffix =>
    match pc.suf with
    | some sfx =>
      if sfx ≠ "" && listEndsWith seg.toList sfx.toList then
        some (dropEndStr seg sfx.toList.length)
      else none
    | none => none
  | .namedRegexSuffix =>
    match pc.suf with
    | some sfx =>
      if sfx ≠ "" && listEndsWith seg.toList sfx.toList then
        match pc.regex with
        | some r =>
          if regexTest r (dropEndStr seg sfx.toList.length) then
            some (dropEndStr seg sfx.toList.length)
          else none
        | none => none
      else none
    | none => none

/-- Successful parameter-child bindings for one segment, in child order:
the child node to recurse into and the parameter map extended with the
bound value. -/
def paramBindings (pcs : List ParamChild) (seg : String)
    (params : List (String × String)) : List (TrieNode × List (String × String)) :=
  match pcs with
  | [] => []
  | pc :: rest =>
    match paramTry pc seg with
    | some v => (pc.node, alSet params pc.name v) :: paramBindings rest seg params
    | none => paramBindings rest seg params

/-- The segments-exhausted case of `_match` (`src/trie.ts` lines
284-303): record the node's own handlers if non-empty, then a catch-all
child bound to the empty string if its handlers are non-empty.  The
wildcard arm of `_match` calls `_match(child, segments, segments.length, params)`,
which executes exactly this case, so it is shared. -/
def matchExhausted (node : TrieNode) (params : List (String × String)) :
    List MatchResult :=
  (if node.handlers = [] then [] else [⟨params, node.handlers⟩]) ++
    (match node.catchAllChild with
     | some (nm, c) =>
       if c.handlers = [] then [] else [⟨alSet params nm "", c.handlers⟩]
     | none => [])

/-- `_match` from `src/trie.ts`: full, non-short-circuiting search.
With segments remaining: static child on exact key, then every binding
parameter child, then a catch-all child (recorded immediately, no
recursion, remainder rejoined with `/`), then a wildcard child (cursor
moved to the end). -/
def matchNode : TrieNode → List String → List (String × String) → List MatchResult
  | node, [], params => matchExhausted node params
  | node, seg :: rest, params =>
    (match alGet node.staticChildren seg with
     | some child => matchNode child rest params
     | none => []) ++
    (paramBindings node.paramChildren seg params).flatMap
      (fun cp => matchNode cp.1 rest cp.2) ++
    (match node.catchAllChild with
     | some (nm, c) =>
       if c.handlers = [] then []
       else [⟨alSet params nm (joinSlash (seg :: rest)), c.handlers⟩]
     | none => []) ++
    (match node.wildcardChild with
     | some c => matchExhausted c params
     | none => [])

/-- The normalized segment sequence used by `_matchPath` (`src/trie.ts`
lines 115-162): optional separator-run collapse, optional
trailing-separator trim, case folding, split, then the filtered-segment
logic that drops leading empties, drops interior empties only under
`useFixedPath`, and re-appends trailing empties (one under
`useFixedPath`, else their original count) when `useTrailingSlash` is
off. -/
def filteredSegs (ignoreCase : Bool) (path : String)
    (useFixedPath useTrailingSlash : Bool) : List String :=
  let n1 := if useFixedPath then collapseSlashes path else path
  let n2 := if useTrailingSlash then trimTrailSlashes n1 else n1
  let n3 := if ignoreCase then lowerStr n2 else n2
  let segments := splitSlash n3
  let lead := (segments.takeWhile (fun s => s = "")).length
  let interior := dropTrailEmpty (segments.dropWhile (fun s => s = ""))
  let trailingCount := segments.length - lead - interior.length
  let kept := if useFixedPath then interior.filter (fun s => s ≠ "") else interior
  let addTrailing := !useTrailingSlash && decide (0 < trailingCount)
  let numToAdd := if useFixedPath then 1 else trailingCount
  kept ++ (if addTrailing then List.replicate numToAdd "" else [])

/-- `_matchPath`: normalize for one variant, then search from the root. -/
def matchVariant (t : RouteTrie) (path : String)
    (useFixedPath useTrailingSlash : Bool) : List MatchResult :=
  matchNode t.root (filteredSegs t.options.ignoreCase path useFixedPath useTrailingSlash) []

/-- `match` from `src/trie.ts` (named `matchRoute` because `match` is a
Lean keyword): try the exact variant, then the fixed-path variant if
`fixedPath` is enabled, then the trailing-trim variant (collapsing per
the `fixedPath` option) if `trailingSlash` is enabled; return the first
non-empty result list, else the empty list. -/
def RouteTrie.matchRoute (t : RouteTrie) (path : String) : List MatchResult :=
  let exactR := matchVariant t path false false
  if exactR ≠ [] then exactR
  else
    let fixedR := if t.options.fixedPath then matchVariant t path true false else []
    if fixedR ≠ [] then fixedR
    else
      let trailingR :=
        if t.options.trailingSlash then matchVariant t path t.options.fixedPath true
        else []
      if trailingR ≠ [] then trailingR else []

/-- State-threaded form of `match`: the source's method reads
`this.root` and `this.options` and assigns no field, so the state passes
through unchanged. -/
def RouteTrie.matchState (t : RouteTrie) (path : String) :
    List MatchResult × RouteTrie :=
  (t.matchRoute path, t)

/-!
## Concrete routers used by the property checks

Handlers are identified by the `Nat` passed to `addRoute`.
-/

/-- All-defaults router with `/api/foo` registered (handler 1). -/
def trieLenient : RouteTrie := ((RouteTrie.new {}).addRoute "/api/foo" 1).1

/-- Router with `ignoreCase`, `fixedPath`, `trailingSlash` all disabled
and `/api/foo` registered (handler 1). -/
def trieStrict : RouteTrie :=
  ((RouteTrie.new ⟨some false, some false, some false⟩).addRoute "/api/foo" 1).1

/-- All-defaults router with `/:id` (handler 1) and `/:id(\d+)`
(handler 2) registered as sibling parameter children of the root. -/
def trieAmbig : RouteTrie :=
  (((RouteTrie.new {}).addRoute "/:id" 1).1.addRoute "/:id(\\d+)" 2).1

/-- All-defaults router with `/:rest*` registered (handler 1). -/
def trieRest : RouteTrie := ((RouteTrie.new {}).addRoute "/:rest*" 1).1

/-- All-defaults router with `/:rest*/x` registered (handler 1): the
catch-all child exists but its own handler list is empty. -/
def trieRestTail : RouteTrie := ((RouteTrie.new {}).addRoute "/:rest*/x" 1).1

/-- All-defaults router with `/:a*` (handler 1) and then `/:b*`
(handler 2) registered at the root. -/
def trieCatchNames : RouteTrie :=
  (((RouteTrie.new {}).addRoute "/:a*" 1).1.addRoute "/:b*" 2).1

/-- All-defaults router with `/:rest*/tail` registered (handler 1). -/
def trieWildTail : RouteTrie := ((RouteTrie.new {}).addRoute "/:rest*/tail" 1).1

/-- All-defaults router with `/:id(\d+)` registered twice (handlers 1
and 2). -/
def trieDupRegex : RouteTrie :=
  (((RouteTrie.new {}).addRoute "/:id(\\d+)" 1).1.addRoute "/:id(\\d+)" 2).1

/-- All-defaults router with `/:id(x)` registered (handler 1). -/
def trieRegX : RouteTrie := ((RouteTrie.new {}).addRoute "/:id(x)" 1).1

/-!
## Helper lemmas
-/

/-- Every result of the cascading `match` comes from one of the three
normalization variants. -/
theorem mem_matchRoute_variant (t : RouteTrie) (path : String) (r : MatchResult)
    (h : r ∈ t.matchRoute path) :
    ∃ ufp uts, r ∈ matchVariant t path ufp uts := by
  unfold RouteTrie.matchRoute at h
  by_cases h1 : matchVariant t path false false ≠ []
  · rw [if_pos h1] at h
    exact ⟨false, false, h⟩
  · rw [if_neg h1] at h
    by_cases hf : t.options.fixedPath
    · rw [if_pos hf] at h
      by_cases h2 : matchVariant t path true false ≠ []
      · rw [if_pos h2] at h
        exact ⟨true, false, h⟩
      · rw [if_neg h2] at h
        by_cases ht : t.options.trailingSlash
        · rw [if_pos ht] at h
          by_cases h3 : matchVariant t path t.options.fixedPath true ≠ []
          · rw [if_pos h3] at h
            exact ⟨t.options.fixedPath, true, h⟩
          · rw [if_neg h3] at h
            simp at h
        · rw [if_neg ht] at h
          simp at h
    · rw [if_neg hf] at h
      simp only [ne_eq, not_true_eq_false, if_false, ite_self] at h
      by_cases ht : t.options.trailingSlash
      · rw [if_pos ht] at h
        by_cases h3 : matchVariant t path t.options.fixedPath true ≠ []
        · rw [if_pos h3] at h
          exact ⟨t.options.fixedPath, true, h⟩
        · rw [if_neg h3] at h
          simp at h
      · rw [if_neg ht] at h
        simp at h

/-- If every variant yields no result, the cascade yields no result. -/
theorem matchRoute_eq_nil (t : RouteTrie) (path : String)
    (h : ∀ ufp uts, matchVariant t path ufp uts = []) :
    t.matchRoute path = [] := by
  unfold RouteTrie.matchRoute
  simp [h]

/-!
## The claims
-/

/-- C1.  The duplicate-detection scan compares the stored compiled
regex's string form (`/^pat$/` plus flags) against `new RegExp(pat)`'s
string form (`/pat/`, no flags); the two never coincide for a
regex-bearing segment, so re-registering `/:id(\d+)` appends a second
sibling parameter child instead of reusing the first.  Each sibling
holds one handler and `match("/42")` returns two single-handler results
instead of one result carrying both handlers, contradicting the claimed
idempotence for regex-constrained segments. -/
theorem C1_regex_dedup_divergence :
    trieDupRegex.root.paramChildren.length = 2 ∧
    trieDupRegex.root.paramChildren.map (fun pc => pc.node.handlers) = [[1], [2]] ∧
    trieDupRegex.root.paramChildren.map (fun pc => pc.regex.map JSRegex.str) =
      [some "/^\\d+$/i", some "/^\\d+$/i"] ∧
    rawStr "\\d+" = "/\\d+/" ∧
    trieDupRegex.matchRoute "/42" =
      [⟨[("id", "42")], [1]⟩, ⟨[("id", "42")], [2]⟩] := by
  refine ⟨by decide, by decide, by decide, by decide, by decide⟩

/-- C4.  Strict-mode exactness: with `ignoreCase`, `fixedPath` and
`trailingSlash` all disabled and `/api/foo` registered, the paths
`/API/foo`, `/api//foo` and `/api/foo/` all fail to match, while
`/api/foo` matches exactly, returning the registered handler. -/
theorem C4_strict_exactness :
    trieStrict.matchRoute "/API/foo" = [] ∧
    trieStrict.matchRoute "/api//foo" = [] ∧
    trieStrict.matchRoute "/api/foo/" = [] ∧
    trieStrict.matchRoute "/api/foo" = [⟨[], [1]⟩] := by
  refine ⟨by decide, by decide, by decide, by decide⟩

/-- C7.  Ambiguous coexistence: with `/:id` (handler 1) and `/:id(\d+)`
(handler 2) registered as sibling parameter children of the root,
`match("/42")` returns exactly two results, each binding `id="42"`, in
registration order; `match("/abc")` returns exactly the unconstrained
result. -/
theorem C7_ambiguous_coexistence :
    trieAmbig.root.paramChildren.map ParamChild.kind = [.named, .namedRegex] ∧
    trieAmbig.matchRoute "/42" =
      [⟨[("id", "42")], [1]⟩, ⟨[("id", "42")], [2]⟩] ∧
    trieAmbig.matchRoute "/abc" = [⟨[("id", "abc")], [1]⟩] := by
  refine ⟨by decide, by decide, by decide⟩

/-- C2 counterexample.  The classifier's fourth and fifth checks use
unanchored regexes, so a segment whose `<marker><name>(<pattern>)` form
starts in the middle still classifies as `named-regex`: `ab:id(x)` does
not start with the parameter marker yet yields `named-regex("id","x")`,
refuting "classifies as named-regex only when it has that form from the
start of the segment". -/
theorem C2_counterexample :
    parseSegment "ab:id(x)" = .namedRegex "id" "x" ∧
    "ab:id(x)".toList.head? ≠ some ':' := by
  refine ⟨by decide, by decide⟩

/-- C2 (amended).  The seven checks run in the stated order, but the
suffix and regex forms are searched for anywhere in the segment
(leftmost occurrence), not only from its start: a segment that fails
checks 1-6 — it does not begin with the escape pair, is not the wildcard
marker, does not both start with `:` and end with `*`, contains neither
the suffix form nor the regex form, and does not start with `:` — is
`static` with the segment verbatim; `:id(\d+)+json` is
`named-regex-suffix`, never `named-regex`; and `ab:id(x)`, whose regex
form starts mid-segment, is still `named-regex`. -/
theorem C2_classifier_precedence :
    (∀ s : String,
      s.toList.take 2 ≠ [':', ':'] →
      s.toList ≠ ['*'] →
      (s.toList.getLast? = some '*' && s.toList.head? = some ':') = false →
      scanForm suffixFormAt s.toList = none →
      scanForm regexFormAt s.toList = none →
      s.toList.head? ≠ some ':' →
      parseSegment s = .static s) ∧
    parseSegment ":id(\\d+)+json" = .namedRegexSuffix "id" "\\d+" "json" ∧
    parseSegment "ab:id(x)" = .namedRegex "id" "x" := by
  refine ⟨?_, by decide, by decide⟩
  intro s h1 h2 h3 h4 h5 h6
  unfold parseSegment
  rw [if_neg h1, if_neg h2, h3, h4, h5, if_neg h6]
  simp

/-- C2 witness: the fall-through case applied to the segment `foo`. -/
theorem C2_classifier_precedence_witness : parseSegment "foo" = .static "foo" :=
  C2_classifier_precedence.1 "foo" (by decide) (by decide) (by decide)
    (by decide) (by decide) (by decide)

/-- C3.  Normalization fallback ordering: `match` returns the exact
variant when it is non-empty; otherwise the fixed-path variant when the
`fixedPath` option is enabled and it is non-empty; otherwise the
trailing-trim variant (collapsing per the `fixedPath` option) when the
`trailingSlash` option is enabled and it is non-empty; otherwise the
empty list.  Consequently, with all options at their defaults
(`true`), `/API//Foo/` matches a route registered as `/api/foo`. -/
theorem C3_fallback_ordering :
    (∀ (t : RouteTrie) (path : String),
      (matchVariant t path false false ≠ [] →
        t.matchRoute path = matchVariant t path false false) ∧
      (matchVariant t path false false = [] →
        t.options.fixedPath = true →
        matchVariant t path true false ≠ [] →
        t.matchRoute path = matchVariant t path true false) ∧
      (matchVariant t path false false = [] →
        (if t.options.fixedPath then matchVariant t path true false else []) = [] →
        t.options.trailingSlash = true →
        matchVariant t path t.options.fixedPath true ≠ [] →
        t.matchRoute path = matchVariant t path t.options.fixedPath true) ∧
      (matchVariant t path false false = [] →
        (if t.options.fixedPath then matchVariant t path true false else []) = [] →
        (if t.options.trailingSlash then matchVariant t path t.options.fixedPath true
         else []) = [] →
        t.matchRoute path = [])) ∧
    trieLenient.matchRoute "/API//Foo/" = [⟨[], [1]⟩] := by
  refine ⟨?_, by decide⟩
  intro t path
  refine ⟨?_, ?_, ?_, ?_⟩
  · intro h1
    unfold RouteTrie.matchRoute
    rw [if_pos h1]
  · intro h1 hf h2
    unfold RouteTrie.matchRoute
    simp [h1, hf, h2]
  · intro h1 h2 ht h3
    unfold RouteTrie.matchRoute
    simp [h1, h2, ht, h3]
  · intro h1 h2 h3
    unfold RouteTrie.matchRoute
    simp [h1, h2, h3]

/-- C3 witness: on the default-options router for `/api/foo`, the path
`/API//Foo/` falls through the exact and fixed-path variants and is
resolved by the trailing-trim variant. -/
theorem C3_fallback_ordering_witness :
    trieLenient.matchRoute "/API//Foo/" =
      matchVariant trieLenient "/API//Foo/" trieLenient.options.fixedPath true :=
  (C3_fallback_ordering.1 trieLenient "/API//Foo/").2.2.1
    (by decide) (by decide) (by decide) (by decide)

/-- C5 counterexample.  A catch-all child is recorded only when its own
handler list is non-empty: after registering `/:rest*/x`, the root has a
catch-all child (whose handlers live deeper, at its `x` static child),
yet matching `/` — segments exhausted at the root with that catch-all
child present — records nothing, refuting "a catch-all child, if
present, is recorded as an additional distinct result". -/
theorem C5_counterexample :
    trieRestTail.root.catchAllChild.isSome = true ∧
    trieRestTail.matchRoute "/" = [] := by
  refine ⟨by decide, by decide⟩

/-- C5 (amended).  When segments remain and the node has a catch-all
child with a **non-empty** handler list, a result binding the name to
the remaining segments rejoined by `/` and carrying exactly that child's
own handler list is recorded (no recursion into the catch-all subtree);
when segments are exhausted, the node's own handlers (if non-empty) are
recorded, and a catch-all child is recorded as an additional distinct
result bound to the empty string provided its handler list is
non-empty.  Pattern `/:rest*` matches `/a/b/c` with `rest="a/b/c"` and
`/` with `rest=""`. -/
theorem C5_catchAll_semantics :
    (∀ (node : TrieNode) (nm : String) (c : TrieNode) (seg : String)
       (rest : List String) (params : List (String × String)),
      node.catchAllChild = some (nm, c) → c.handlers ≠ [] →
      (⟨alSet params nm (joinSlash (seg :: rest)), c.handlers⟩ : MatchResult) ∈
        matchNode node (seg :: rest) params) ∧
    (∀ (node : TrieNode) (nm : String) (c : TrieNode)
       (params : List (String × String)),
      node.catchAllChild = some (nm, c) → c.handlers ≠ [] →
      (⟨alSet params nm "", c.handlers⟩ : MatchResult) ∈ matchNode node [] params) ∧
    (∀ (node : TrieNode) (params : List (String × String)),
      node.handlers ≠ [] →
      (⟨params, node.handlers⟩ : MatchResult) ∈ matchNode node [] params) ∧
    trieRest.matchRoute "/a/b/c" = [⟨[("rest", "a/b/c")], [1]⟩] ∧
    trieRest.matchRoute "/" = [⟨[("rest", "")], [1]⟩] := by
  refine ⟨?_, ?_, ?_, by decide, by decide⟩
  · intro node nm c seg rest params hca hh
    simp only [matchNode, hca, if_neg hh, List.mem_append]
    left; right
    simp
  · intro node nm c params hca hh
    simp only [matchNode, matchExhausted, hca, if_neg hh, List.mem_append]
    right
    simp
  · intro node params hh
    simp only [matchNode, matchExhausted, if_neg hh, List.mem_append]
    left
    simp

/-- C5 witness: the remaining-segments case applied at the root of the
`/: rest*` router with segment list `["a"]`, and the exhausted cases at
the same root. -/
theorem C5_catchAll_semantics_witness :
    (⟨[("rest", "a")], [1]⟩ : MatchResult) ∈ matchNode trieRest.root ["a"] [] ∧
    (⟨[("rest", "")], [1]⟩ : MatchResult) ∈ matchNode trieRest.root [] [] ∧
    (⟨[("k", "v")], [7]⟩ : MatchResult) ∈
      matchNode (TrieNode.mk [] [] none none [7]) [] [("k", "v")] := by
  refine ⟨?_, ?_, ?_⟩
  · exact C5_catchAll_semantics.1 trieRest.root "rest"
      (TrieNode.mk [] [] none none [1]) "a" [] [] rfl (by decide)
  · exact C5_catchAll_semantics.2.1 trieRest.root "rest"
      (TrieNode.mk [] [] none none [1]) [] rfl (by decide)
  · exact C5_catchAll_semantics.2.2.1 (TrieNode.mk [] [] none none [7])
      [("k", "v")] (by decide)

/-- A segment whose regex constraint (if any) compiles. -/
def segRegexOK (seg : String) : Bool :=
  match parseSegment seg with
  | .namedRegex _ r => jsCompiles r
  | .namedRegexSuffix _ r _ => jsCompiles r
  | _ => true

theorem strToList_append (s t : String) :
    (s ++ t).toList = s.toList ++ t.toList := by
  cases s; cases t; rfl

theorem dropWhile_append_singleton (p : Char → Bool) (c : Char) (l : List Char)
    (hc : p c = false) :
    List.dropWhile p (l ++ [c]) = List.dropWhile p l ++ [c] := by
  induction l with
  | nil => simp [List.dropWhile, hc]
  | cons a l ih =>
    by_cases ha : p a
    · simp [List.dropWhile, ha, ih]
    · simp [List.dropWhile, ha]

/-- Anchoring a pattern at both ends does not change whether it
compiles in the modelled fragment. -/
theorem jsCompiles_anchor (r : String) :
    jsCompiles ("^" ++ r ++ "$") = jsCompiles r := by
  unfold jsCompiles jsParse
  have h1 : ("^" ++ r ++ "$").toList = '^' :: (r.toList ++ ['$']) := by
    rw [strToList_append, strToList_append]
    rfl
  have h2 : stripAnchors ('^' :: (r.toList ++ ['$'])) = stripAnchors r.toList := by
    unfold stripAnchors
    rw [List.dropWhile_cons_of_pos (by decide),
        dropWhile_append_singleton _ _ _ (by decide)]
    rw [List.reverse_append]
    simp [List.dropWhile]
  rw [h1, h2]

/-- The duplicate-detection scan can only fail when the parsed regex
pattern does not compile. -/
theorem scanParamChildren_ok (kind : PKind) (nm : String) (reSrc : Option String)
    (sfx : Option String) (l : List ParamChild)
    (h : ∀ r, reSrc = some r → jsCompiles r = true) :
    ∃ v, scanParamChildren kind nm reSrc sfx l = .ok v := by
  induction l with
  | nil => exact ⟨none, rfl⟩
  | cons pc rest ih =>
    obtain ⟨v, hv⟩ := ih
    by_cases hnk : pc.name = nm ∧ pc.kind = kind
    · cases hre : reSrc with
      | some r =>
        rw [hre] at hv
        have hc := h r hre
        cases hb : (pc.regex.map JSRegex.str = some (rawStr r) ∧ pc.suf = sfx : Bool) with
        | true =>
          refine ⟨some ([], pc, rest), ?_⟩
          simp only [scanParamChildren, if_pos hnk, hc, eq_self_iff_true, if_true]
          rw [hb]
        | false =>
          obtain _ | ⟨bef, p, aft⟩ := v
          · refine ⟨none, ?_⟩
            simp only [scanParamChildren, if_pos hnk, hc, eq_self_iff_true, if_true]
            rw [hb, hv]
          · refine ⟨some (pc :: bef, p, aft), ?_⟩
            simp only [scanParamChildren, if_pos hnk, hc, eq_self_iff_true, if_true]
            rw [hb, hv]
      | none =>
        rw [hre] at hv
        cases hb : (pc.regex.map JSRegex.str = none ∧ pc.suf = sfx : Bool) with
        | true =>
          refine ⟨some ([], pc, rest), ?_⟩
          simp only [scanParamChildren, if_pos hnk]
          rw [hb]
        | false =>
          obtain _ | ⟨bef, p, aft⟩ := v
          · refine ⟨none, ?_⟩
            simp only [scanParamChildren, if_pos hnk]
            rw [hb, hv]
          · refine ⟨some (pc :: bef, p, aft), ?_⟩
            simp only [scanParamChildren, if_pos hnk]
            rw [hb, hv]
    · obtain _ | ⟨bef, p, aft⟩ := v
      · refine ⟨none, ?_⟩
        simp only [scanParamChildren, if_neg hnk]
        rw [hv]
      · refine ⟨some (pc :: bef, p, aft), ?_⟩
        simp only [scanParamChildren, if_neg hnk]
        rw [hv]

/-- If every remaining segment's regex constraint compiles, `_addRoute`
completes without raising. -/
theorem addRouteNode_ok (ic : Bool) (segs : List String) :
    ∀ (node : TrieNode) (h : Nat),
      (∀ s ∈ segs, segRegexOK s = true) →
      (addRouteNode ic node segs h).2 = none := by
  induction segs with
  | nil => intro node h _; rfl
  | cons seg rest ih =>
    intro node h hall
    have hseg : segRegexOK seg = true := hall seg (by simp)
    have hrest : ∀ s ∈ rest, segRegexOK s = true := fun s hs => hall s (by simp [hs])
    unfold addRouteNode
    cases hp : parseSegment seg with
    | static v =>
      dsimp only
      have hn := ih ((alGet node.staticChildren v).getD TrieNode.empty) h hrest
      rcases hx : addRouteNode ic ((alGet node.staticChildren v).getD TrieNode.empty) rest h
        with ⟨c2, err⟩
      rw [hx] at hn
      exact hn
    | named nm =>
      dsimp only
      unfold addParamRoute
      obtain ⟨v, hs⟩ := scanParamChildren_ok PKind.named nm none none
        node.paramChildren (fun r hr => by cases hr)
      rw [hs]
      obtain _ | ⟨bef, pc, aft⟩ := v
      · dsimp only
        have hn := ih TrieNode.empty h hrest
        rcases hx : addRouteNode ic TrieNode.empty rest h with ⟨c2, err⟩
        rw [hx] at hn
        exact hn
      · dsimp only
        have hn := ih pc.node h hrest
        rcases hx : addRouteNode ic pc.node rest h with ⟨c2, err⟩
        rw [hx] at hn
        exact hn
    | namedRegex nm re =>
      have hre : jsCompiles re = true := by
        have hq := hseg
        unfold segRegexOK at hq
        rw [hp] at hq
        exact hq
      dsimp only
      unfold addParamRoute
      obtain ⟨v, hs⟩ := scanParamChildren_ok PKind.namedRegex nm (some re) none
        node.paramChildren (fun r hr => by cases hr; exact hre)
      rw [hs]
      obtain _ | ⟨bef, pc, aft⟩ := v
      · dsimp only
        simp only [jsCompiles_anchor re, hre, eq_self_iff_true, if_true]
        have hn := ih TrieNode.empty h hrest
        rcases hx : addRouteNode ic TrieNode.empty rest h with ⟨c2, err⟩
        rw [hx] at hn
        exact hn
      · dsimp only
        have hn := ih pc.node h hrest
        rcases hx : addRouteNode ic pc.node rest h with ⟨c2, err⟩
        rw [hx] at hn
        exact hn
    | namedSuffix nm sfx =>
      dsimp only
      unfold addParamRoute
      obtain ⟨v, hs⟩ := scanParamChildren_ok PKind.namedSuffix nm none (some sfx)
        node.paramChildren (fun r hr => by cases hr)
      rw [hs]
      obtain _ | ⟨bef, pc, aft⟩ := v
      · dsimp only
        have hn := ih TrieNode.empty h hrest
        rcases hx : addRouteNode ic TrieNode.empty rest h with ⟨c2, err⟩
        rw [hx] at hn
        exact hn
      · dsimp only
        have hn := ih pc.node h hrest
        rcases hx : addRouteNode ic pc.node rest h with ⟨c2, err⟩
        rw [hx] at hn
        exact hn
    | namedRegexSuffix nm re sfx =>
      have hre : jsCompiles re = true := by
        have hq := hseg
        unfold segRegexOK at hq
        rw [hp] at hq
        exact hq
      dsimp only
      unfold addParamRoute
      obtain ⟨v, hs⟩ := scanParamChildren_ok PKind.namedRegexSuffix nm (some re) (some sfx)
        node.paramChildren (fun r hr => by cases hr; exact hre)
      rw [hs]
      obtain _ | ⟨bef, pc, aft⟩ := v
      · dsimp only
        simp only [jsCompiles_anchor re, hre, eq_self_iff_true, if_true]
        have hn := ih TrieNode.empty h hrest
        rcases hx : addRouteNode ic TrieNode.empty rest h with ⟨c2, err⟩
        rw [hx] at hn
        exact hn
      · dsimp only
        have hn := ih pc.node h hrest
        rcases hx : addRouteNode ic pc.node rest h with ⟨c2, err⟩
        rw [hx] at hn
        exact hn
    | catchAll nm =>
      cases hca : node.catchAllChild with
      | some p =>
        obtain ⟨nm0, c⟩ := p
        dsimp only
        have hn := ih c h hrest
        rcases hx : addRouteNode ic c rest h with ⟨c2, err⟩
        rw [hx] at hn
        exact hn
      | none =>
        dsimp only
        have hn := ih TrieNode.empty h hrest
        rcases hx : addRouteNode ic TrieNode.empty rest h with ⟨c2, err⟩
        rw [hx] at hn
        exact hn
    | wildcard => rfl

/-- C6 counterexample.  `insert` does **not** raise for every pattern
containing a non-compiling regex segment: a wildcard segment consumes
the rest of the pattern, so the bad segment in `/*/:id(+)` is never
reached and registration succeeds.  And the raised error is not always
the wrapped `ConfigurationError`: when the node already has a parameter
child with the same name and kind, the duplicate-detection comparison
itself constructs `new RegExp("+")` and the raw `SyntaxError` escapes
instead. -/
theorem C6_counterexample :
    ((RouteTrie.new {}).addRoute "/*/:id(+)" 1).2 = none ∧
    (trieRegX.addRoute "/:id(+)" 2).2 = some (.syntaxError "+") ∧
    RouteError.syntaxError "+" ≠ RouteError.configError "+" := by
  refine ⟨by decide, by decide, by decide⟩

/-- C6 (amended).  Registration raises an error iff a regex-bearing
segment that insertion actually reaches (wildcard consumes the rest of
the pattern, so later segments are skipped) carries a non-compiling
pattern: (i) when every segment's regex constraint compiles, `insert`
returns normally whatever the trie's prior contents; (ii) a
non-compiling constraint reaching a node with no parameter children
raises the wrapped `ConfigurationError`; (iii) when a parameter child
with the same name and kind already exists, the raw regex
`SyntaxError` escapes from the duplicate-detection comparison instead;
(iv) a non-compiling constraint preceded by a wildcard segment raises
nothing. -/
theorem C6_insert_error_conditions :
    (∀ (t : RouteTrie) (path : String) (h : Nat),
      (∀ s ∈ (splitSlash (normalizeRoutePath t.options path)).filter
          (fun s => s ≠ ""), segRegexOK s = true) →
      (t.addRoute path h).2 = none) ∧
    (∀ (t : RouteTrie) (h : Nat),
      t.root.paramChildren = [] →
      (t.addRoute "/:id(+)" h).2 = some (.configError "+")) ∧
    (trieRegX.addRoute "/:id(+)" 2).2 = some (.syntaxError "+") ∧
    (∀ (t : RouteTrie) (h : Nat), (t.addRoute "/*/:id(+)" h).2 = none) := by
  refine ⟨?_, ?_, by decide, ?_⟩
  · intro t path h hall
    simp only [RouteTrie.addRoute]
    have hn := addRouteNode_ok t.options.ignoreCase
      ((splitSlash (normalizeRoutePath t.options path)).filter (fun s => s ≠ ""))
      t.root h hall
    rcases hx : addRouteNode t.options.ignoreCase t.root
      ((splitSlash (normalizeRoutePath t.options path)).filter (fun s => s ≠ "")) h
      with ⟨r2, err⟩
    rw [hx] at hn
    exact hn
  · intro t h hpc
    have hnorm : normalizeRoutePath t.options "/:id(+)" = ":id(+)" := by
      rcases t.options with ⟨i, f, tr⟩
      cases i <;> cases f <;> rfl
    simp only [RouteTrie.addRoute]
    rw [hnorm]
    have hsegs : (splitSlash ":id(+)").filter (fun s => s ≠ "") = [":id(+)"] := by decide
    rw [hsegs]
    have hp : parseSegment ":id(+)" = .namedRegex "id" "+" := by decide
    unfold addRouteNode
    rw [hp]
    dsimp only
    unfold addParamRoute
    rw [hpc]
    have hbad : jsCompiles "^+$" = false := by decide
    simp [scanParamChildren, hbad]
  · intro t h
    have hnorm : normalizeRoutePath t.options "/*/:id(+)" = "*/:id(+)" := by
      rcases t.options with ⟨i, f, tr⟩
      cases i <;> cases f <;> rfl
    simp only [RouteTrie.addRoute]
    rw [hnorm]
    have hsegs : (splitSlash "*/:id(+)").filter (fun s => s ≠ "") = ["*", ":id(+)"] := by
      decide
    rw [hsegs]
    have hp : parseSegment "*" = .wildcard := by decide
    unfold addRouteNode
    rw [hp]

/-- C6 witness: registering `/item/:id(\d+)` — whose only regex
constraint compiles — on a fresh router raises nothing, and registering
`/:id(+)` on a fresh router (no parameter children at the root) raises
the `ConfigurationError`. -/
theorem C6_insert_error_conditions_witness :
    ((RouteTrie.new {}).addRoute "/item/:id(\\d+)" 5).2 = none ∧
    ((RouteTrie.new {}).addRoute "/:id(+)" 7).2 = some (.configError "+") :=
  ⟨C6_insert_error_conditions.1 (RouteTrie.new {}) "/item/:id(\\d+)" 5 (by decide),
   C6_insert_error_conditions.2.1 (RouteTrie.new {}) 7 rfl⟩

/-- C8.  `match` is non-mutating and reads only the root and the
options: the state-threaded form returns the state unchanged, and two
routers agreeing on root and options — but with arbitrary, possibly
different `routes` registries — produce identical match results for
every path. -/
theorem C8_match_pure (t1 t2 : RouteTrie) (path : String)
    (h1 : t1.root = t2.root) (h2 : t1.options = t2.options) :
    (t1.matchState path).2 = t1 ∧
    t1.matchState path = (t1.matchRoute path, t1) ∧
    t1.matchRoute path = t2.matchRoute path := by
  refine ⟨rfl, rfl, ?_⟩
  simp only [RouteTrie.matchRoute, matchVariant, h1, h2]

/-- C8 witness: two routers sharing root and options but with different
registries match identically. -/
theorem C8_match_pure_witness :
    (trieLenient.matchState "/api/foo").2 = trieLenient ∧
    trieLenient.matchState "/api/foo" =
      (trieLenient.matchRoute "/api/foo", trieLenient) ∧
    trieLenient.matchRoute "/api/foo" =
      ({ trieLenient with routes := [] } : RouteTrie).matchRoute "/api/foo" :=
  C8_match_pure trieLenient { trieLenient with routes := [] } "/api/foo" rfl rfl

/-- C9.  The catch-all child's name is fixed by the first registration:
after `/:a*` then `/:b*`, the single catch-all child is named `a` and
accumulates both handlers; `match("/x/y")` binds `a="x/y"` with
handlers `[1, 2]`; and on every path, every parameter key in every
result is `"a"` — the name `"b"` never appears. -/
theorem C9_catchAll_name_first_registration :
    trieCatchNames.root.catchAllChild.map (fun p => (p.1, p.2.handlers)) =
      some ("a", [1, 2]) ∧
    trieCatchNames.matchRoute "/x/y" = [⟨[("a", "x/y")], [1, 2]⟩] ∧
    (∀ (path : String) (r : MatchResult) (kv : String × String),
      r ∈ trieCatchNames.matchRoute path → kv ∈ r.params → kv.1 = "a") := by
  refine ⟨by decide, by decide, ?_⟩
  intro path r kv hr hkv
  obtain ⟨ufp, uts, hm⟩ := mem_matchRoute_variant _ _ _ hr
  unfold matchVariant at hm
  have hroot : trieCatchNames.root =
      TrieNode.mk [] [] (some ("a", TrieNode.mk [] [] none none [1, 2])) none [] := rfl
  rw [hroot] at hm
  generalize filteredSegs trieCatchNames.options.ignoreCase path ufp uts = segs at hm
  cases segs with
  | nil =>
    simp [matchNode, matchExhausted, TrieNode.handlers, TrieNode.catchAllChild,
      alSet] at hm
    rw [hm] at hkv
    simp at hkv
    rw [hkv]
  | cons seg rest =>
    simp [matchNode, TrieNode.staticChildren, TrieNode.paramChildren,
      TrieNode.catchAllChild, TrieNode.wildcardChild, TrieNode.handlers,
      alGet, paramBindings, alSet] at hm
    rw [hm] at hkv
    simp at hkv
    rw [hkv]

/-- C9 witness: the universal part applied at `/x/y` with the returned
result and its only binding. -/
theorem C9_catchAll_name_first_registration_witness :
    (("a", "x/y") : String × String).1 = "a" :=
  C9_catchAll_name_first_registration.2.2 "/x/y" ⟨[("a", "x/y")], [1, 2]⟩
    ("a", "x/y") (by decide) (by decide)

/-- C10.  After registering `/:rest*/tail`, the handler sits on the
`tail` static child *below* the catch-all child, whose own handler list
is empty; the matcher reads only the catch-all child's own handlers and
never recurses into its subtree, so no path whatsoever produces a
match. -/
theorem C10_segments_after_catchAll_unreachable :
    trieWildTail.root.catchAllChild.map
        (fun p => (p.1, p.2.handlers, p.2.staticChildren.map (fun q => (q.1, q.2.handlers)))) =
      some ("rest", [], [("tail", [1])]) ∧
    ∀ path : String, trieWildTail.matchRoute path = [] := by
  refine ⟨by decide, ?_⟩
  intro path
  apply matchRoute_eq_nil
  intro ufp uts
  unfold matchVariant
  have hroot : trieWildTail.root =
      TrieNode.mk [] []
        (some ("rest", TrieNode.mk [("tail", TrieNode.mk [] [] none none [1])] [] none none []))
        none [] := rfl
  rw [hroot]
  generalize filteredSegs trieWildTail.options.ignoreCase path ufp uts = segs
  cases segs with
  | nil =>
    simp [matchNode, matchExhausted, TrieNode.handlers, TrieNode.catchAllChild]
  | cons seg rest =>
    simp [matchNode, TrieNode.staticChildren, TrieNode.paramChildren,
      TrieNode.catchAllChild, TrieNode.wildcardChild, TrieNode.handlers,
      alGet, paramBindings]
